import Mathlib

/-!
Shallow embedding of `autoregtest.py`, a linear regression-test driver:
argument/config resolution against static fork/system tables, workdir
provisioning, source checkout, test execution, log evaluation with email
notification, and conditional cleanup.  External subprocesses are modelled
by an environment `Env` that supplies each command's exit status and
captured output streams; `main_run` additionally records the list of
external commands executed, in order, so that temporal claims (nothing
runs before resolution fails, nothing runs after a failure) can be stated.
-/

set_option autoImplicit false

namespace Autoregtest

/-- Entry of the static `FORKS` table: allowed branches and clone URL. -/
structure ForkInfo where
  branches : List String
  url : String
deriving DecidableEq, Repr

/-- The static fork table (`FORKS` in the source). -/
def FORKS : List (String × ForkInfo) :=
  [ ("dtc", ⟨["dtc/develop"], "https://github.com/NCAR/ufs-weather-model"⟩),
    ("emc", ⟨["develop"], "https://github.com/ufs-community/ufs-weather-model"⟩),
    ("dom", ⟨["nems_machine_env_var"], "https://github.com/climbfuji/ufs-weather-model"⟩) ]

/-- Entry of the static `SYSTEMS` table: allowed compilers, defaults, and
the per-compiler default regression-test configuration (a dict in the
source, modelled as an association list). -/
structure SystemInfo where
  compilers : List String
  default_compiler : String
  default_project : String
  default_rtconfig : List (String × String)
deriving DecidableEq, Repr

/-- The static system table (`SYSTEMS` in the source). -/
def SYSTEMS : List (String × SystemInfo) :=
  [ ("cheyenne",
      ⟨["intel", "gnu"], "intel", "P48503002",
        [("intel", "rt.conf"), ("gnu", "rt_gnu.conf")]⟩),
    ("hera",
      ⟨["intel"], "intel", "gmtb",
        [("intel", "rt.conf")]⟩) ]

/-- `CHECKOUT_DIR` in the source. -/
def CHECKOUT_DIR : String := "ufs-weather-model"

/-- `RT_SUCCESSFUL` in the source: the success marker string. -/
def RT_SUCCESSFUL : String := "REGRESSION TEST WAS SUCCESSFUL"

/-- `DEFAULT_EMAIL_RECIPIENT` in the source. -/
def DEFAULT_EMAIL_RECIPIENT : String := "heinzell@ucar.edu"

/-- Command-line arguments after argparse: `--fork`, `--branch` and
`--system` are required strings, the rest are optional (argparse default
`None`), `--keep` is a boolean flag. -/
structure Args where
  fork : String
  branch : String
  system : String
  compiler : Option String
  project : Option String
  rtconfig : Option String
  keep : Bool
  email : Option String
deriving DecidableEq, Repr

/-- The resolved run-parameter tuple returned by `parse_arguments`. -/
structure Resolved where
  fork : String
  branch : String
  system : String
  compiler : String
  project : String
  rtconfig : String
  keep : Bool
  email : String
deriving DecidableEq, Repr

/-- Python truthiness on an optional string: `if args.x:` takes the branch
exactly when the value is present and non-empty. -/
def pyTruthy (o : Option String) : Option String :=
  match o with
  | some s => if s = "" then none else some s
  | none => none

/-- `x if args.x else dflt` with Python truthiness. -/
def pyOr (o : Option String) (dflt : String) : String :=
  (pyTruthy o).getD dflt

/-- Configuration errors raised by `parse_arguments` (plain `Exception`s
in the source, distinguished here by their message). -/
inductive ConfigError where
  | invalidFork (fork : String)
  | invalidBranch (branch : String) (fork : String)
  | invalidSystem (system : String)
  | invalidCompiler (compiler : String) (system : String)
  | rtconfigKeyError (compiler : String)
deriving DecidableEq, Repr

/-- `parse_arguments` from the source: validates fork, branch, system and
compiler against the static tables, applies defaults for compiler,
project, rtconfig (per compiler) and email, and returns the resolved
tuple.  Optional arguments go through Python truthiness. -/
def parse_arguments (args : Args) : Except ConfigError Resolved :=
  match List.lookup args.fork FORKS with
  | none => .error (.invalidFork args.fork)
  | some fi =>
    if args.branch ∈ fi.branches then
      match List.lookup args.system SYSTEMS with
      | none => .error (.invalidSystem args.system)
      | some si =>
        let compiler := pyOr args.compiler si.default_compiler
        if compiler ∈ si.compilers then
          let project := pyOr args.project si.default_project
          let email := pyOr args.email DEFAULT_EMAIL_RECIPIENT
          match pyTruthy args.rtconfig with
          | some rt =>
            .ok ⟨args.fork, args.branch, args.system, compiler, project, rt,
                 args.keep, email⟩
          | none =>
            match List.lookup compiler si.default_rtconfig with
            | none => .error (.rtconfigKeyError compiler)
            | some rt =>
              .ok ⟨args.fork, args.branch, args.system, compiler, project, rt,
                   args.keep, email⟩
        else .error (.invalidCompiler compiler args.system)
    else .error (.invalidBranch args.branch args.fork)

/-- Exit status and captured (already decoded) output streams of one
subprocess, as supplied by the outside world. -/
structure ProcResult where
  status : Int
  stdout : String
  stderr : String
deriving DecidableEq, Repr

/-- The payload of the exception raised by `execute` on a non-zero exit
status: the command string, the exit code, and both captured streams. -/
structure ExecError where
  cmd : String
  status : Int
  stdout : String
  stderr : String
deriving DecidableEq, Repr

/-- `stdout.decode().rstrip('\n')`: drop every trailing newline. -/
def rstripNl (s : String) : String :=
  ⟨(s.data.reverse.dropWhile (fun c => c == '\n')).reverse⟩

/-- `execute` from the source: returns `(status, stdout, stderr)` when the
exit status is zero, raises an exception carrying the command, status and
both streams otherwise. -/
def execute (cmd : String) (r : ProcResult) : Except ExecError (Int × String × String) :=
  let stdout := rstripNl r.stdout
  let stderr := rstripNl r.stderr
  if r.status = 0 then .ok (r.status, stdout, stderr)
  else .error ⟨cmd, r.status, stdout, stderr⟩

/-- Does `needle` occur at the start of `hay`? (helper for the Python
substring test `needle in hay`). -/
def startsWithList (needle hay : List Char) : Bool :=
  match needle, hay with
  | [], _ => true
  | _ :: _, [] => false
  | a :: as, b :: bs => a == b && startsWithList as bs

/-- Does `needle` occur anywhere in `hay`? -/
def containsList (needle : List Char) : List Char → Bool
  | [] => startsWithList needle []
  | c :: t => startsWithList needle (c :: t) || containsList needle t

/-- The Python substring test `needle in hay` on strings. -/
def strIn (needle hay : String) : Bool :=
  containsList needle.data hay.data

/-- The `git clone` command built in `checkout_code`. -/
def cloneCmd (branch url : String) : String :=
  "git clone -v -b " ++ branch ++ " " ++ url ++ " " ++ CHECKOUT_DIR

/-- The first submodule command built in `checkout_code`. -/
def submoduleSyncCmd : String := "git submodule sync"

/-- The second submodule command built in `checkout_code`. -/
def submoduleUpdateCmd : String := "git submodule update --init --recursive"

/-- The harness invocation built in `run_tests`. -/
def rtCmd (system compiler project rtconfig : String) (keep : Bool) (rtlog : String) : String :=
  "NEMS_MACHINE=" ++ system ++ " NEMS_COMPILER=" ++ compiler ++ " ACCNR=" ++ project ++
    " ./rt.sh -l " ++ rtconfig ++ " " ++ (if keep then "-k" else "") ++
    " > " ++ rtlog ++ " 2>&1"

/-- The email subject built in `check_logs`. -/
def logSubject (system compiler : String) (success : Bool) : String :=
  if success then system ++ "/" ++ compiler ++ ": regression tests passed"
  else system ++ "/" ++ compiler ++ ": regression tests did NOT PASS"

/-- The email message body built in `check_logs`. -/
def logMessage (rtlog tmpdir : String) (success keep : Bool) : String :=
  if success && keep then
    "Regression tests passed, see regression test log " ++ rtlog ++
      " and run directory " ++ tmpdir ++ "."
  else if success && !keep then
    "Regression tests passed, see regression test log " ++ rtlog ++ "."
  else
    "Regression tests did NOT PASS, check latest regression test log " ++ rtlog ++
      " and run directory " ++ tmpdir

/-- The mail command built in `check_logs`. -/
def mailCmd (message rtlog subject email : String) : String :=
  "echo \"" ++ message ++ "\" | mail -a \"" ++ rtlog ++ "\" -s \"" ++ subject ++
    "\" " ++ email

/-- The outside world of one run: the results the subprocesses would
report, the names chosen for the temporary directory and the log file, and
the content of the log file the harness writes. -/
structure Env where
  tmpdir : String
  rtlog : String
  cloneRes : ProcResult
  syncRes : ProcResult
  updateRes : ProcResult
  rtRes : ProcResult
  logContent : String
  mailRes : ProcResult
deriving DecidableEq, Repr

/-- Errors a run can stop with: a configuration error from
`parse_arguments`, a `KeyError` on a dict access, or an execution error
from `execute`. -/
inductive RunError where
  | config (e : ConfigError)
  | keyError (key : String)
  | exec (e : ExecError)
deriving DecidableEq, Repr

/-- `check_logs` from the source: tests the log content for the success
marker, builds subject and body, and sends the mail through `execute`.
Returns the verdict paired with the list of commands it executed. -/
def check_logs (system compiler tmpdir rtlog logContent : String) (keep : Bool)
    (email : String) (mailRes : ProcResult) : Except ExecError Bool × List String :=
  let success := strIn RT_SUCCESSFUL logContent
  let cmd := mailCmd (logMessage rtlog tmpdir success keep) rtlog
    (logSubject system compiler success) email
  match execute cmd mailRes with
  | .error e => (.error e, [cmd])
  | .ok _ => (.ok success, [cmd])

/-- `checkout_code` from the source: `git clone` of the branch, then the
two submodule commands, stopping at the first failure.  Also returns the
list of commands executed, in order. -/
def checkout_code (fork branch : String) (env : Env) : Except RunError Unit × List String :=
  match List.lookup fork FORKS with
  | none => (.error (.keyError fork), [])
  | some fi =>
    let c1 := cloneCmd branch fi.url
    match execute c1 env.cloneRes with
    | .error e => (.error (.exec e), [c1])
    | .ok _ =>
      match execute submoduleSyncCmd env.syncRes with
      | .error e => (.error (.exec e), [c1, submoduleSyncCmd])
      | .ok _ =>
        match execute submoduleUpdateCmd env.updateRes with
        | .error e => (.error (.exec e), [c1, submoduleSyncCmd, submoduleUpdateCmd])
        | .ok _ => (.ok (), [c1, submoduleSyncCmd, submoduleUpdateCmd])

/-- `run_tests` from the source: invoke the harness, return the log path. -/
def run_tests (system compiler project rtconfig : String) (keep : Bool)
    (env : Env) : Except ExecError String × List String :=
  let cmd := rtCmd system compiler project rtconfig keep env.rtlog
  match execute cmd env.rtRes with
  | .error e => (.error e, [cmd])
  | .ok _ => (.ok env.rtlog, [cmd])

/-- `cleanup` from the source, as a predicate on the work directory:
given whether the directory exists before the call, whether it exists
after (`shutil.rmtree` exactly when `success and not keep`). -/
def cleanup (success keep : Bool) (tmpdirExists : Bool) : Bool :=
  if success && !keep then false else tmpdirExists

deriving instance DecidableEq for Except

/-- Observable outcome of `main`: the final result (the success verdict,
or the error the run stopped with), the external commands executed in
order, whether the temporary work directory was created, and whether it
still exists at the end. -/
structure RunOutcome where
  result : Except RunError Bool
  executed : List String
  workdirCreated : Bool
  workdirExists : Bool
deriving DecidableEq, Repr

/-- `main` from the source: parse arguments, create the work directory,
check out, run the tests, evaluate the log and notify, clean up.  An
exception at any step stops the run there (uncaught propagation). -/
def main_run (args : Args) (env : Env) : RunOutcome :=
  match parse_arguments args with
  | .error e => ⟨.error (.config e), [], false, false⟩
  | .ok r =>
    match checkout_code r.fork r.branch env with
    | (.error e, tr1) => ⟨.error e, tr1, true, true⟩
    | (.ok _, tr1) =>
      match run_tests r.system r.compiler r.project r.rtconfig r.keep env with
      | (.error e, tr2) => ⟨.error (.exec e), tr1 ++ tr2, true, true⟩
      | (.ok rtlog, tr2) =>
        match check_logs r.system r.compiler env.tmpdir rtlog env.logContent
            r.keep r.email env.mailRes with
        | (.error e, tr3) => ⟨.error (.exec e), tr1 ++ tr2 ++ tr3, true, true⟩
        | (.ok success, tr3) =>
          ⟨.ok success, tr1 ++ tr2 ++ tr3, true, cleanup success r.keep true⟩

end Autoregtest
namespace Autoregtest

theorem startsWithList_iff (n h : List Char) :
    startsWithList n h = true ↔ ∃ t, h = n ++ t := by
  induction n generalizing h with
  | nil => simp [startsWithList]
  | cons a as ih =>
    cases h with
    | nil => simp [startsWithList]
    | cons b bs =>
      simp only [startsWithList, Bool.and_eq_true, beq_iff_eq, ih, List.cons_append,
        List.cons.injEq]
      constructor
      · rintro ⟨rfl, t, rfl⟩
        exact ⟨t, rfl, rfl⟩
      · rintro ⟨t, rfl, rfl⟩
        exact ⟨rfl, t, rfl⟩

theorem containsList_iff (n h : List Char) :
    containsList n h = true ↔ ∃ p q, h = p ++ n ++ q := by
  induction h with
  | nil =>
    simp only [containsList, startsWithList_iff]
    constructor
    · rintro ⟨t, ht⟩
      exact ⟨[], t, by simpa using ht⟩
    · rintro ⟨p, q, hpq⟩
      have h0 := List.append_eq_nil.mp hpq.symm
      have h1 := List.append_eq_nil.mp h0.1
      exact ⟨q, by simp [h1.2, h0.2]⟩
  | cons c t ih =>
    simp only [containsList, Bool.or_eq_true, startsWithList_iff, ih]
    constructor
    · rintro (⟨s, hs⟩ | ⟨p, q, hpq⟩)
      · exact ⟨[], s, by simpa using hs⟩
      · exact ⟨c :: p, q, by simp [hpq]⟩
    · rintro ⟨p, q, hpq⟩
      cases p with
      | nil => exact Or.inl ⟨q, by simpa using hpq⟩
      | cons x xs =>
        simp only [List.cons_append, List.cons.injEq, List.append_assoc] at hpq
        exact Or.inr ⟨xs, q, by simp [hpq.2]⟩

theorem strIn_iff (needle hay : String) :
    strIn needle hay = true ↔ ∃ p q, hay.data = p ++ needle.data ++ q :=
  containsList_iff needle.data hay.data

theorem execute_ok_status (cmd : String) (r : ProcResult) (v : Int × String × String)
    (h : execute cmd r = .ok v) : r.status = 0 := by
  by_cases hs : r.status = 0
  · exact hs
  · simp [execute, hs] at h

theorem execute_error_fields (cmd : String) (r : ProcResult) (e : ExecError)
    (h : execute cmd r = .error e) :
    e = ⟨cmd, r.status, rstripNl r.stdout, rstripNl r.stderr⟩ ∧ r.status ≠ 0 := by
  by_cases hs : r.status = 0 <;> simp [execute, hs] at h
  exact ⟨h.symm, hs⟩

/-- C1: `execute` returns the triple `(status, stdout, stderr)` exactly
when the exit status is zero, and otherwise fails with an execution error
carrying the original command string, the exit code, and both captured
streams; it never raises on a zero exit code. -/
theorem execute_contract (cmd : String) (r : ProcResult) :
    (execute cmd r = .ok (r.status, rstripNl r.stdout, rstripNl r.stderr) ↔ r.status = 0) ∧
    (execute cmd r = .error ⟨cmd, r.status, rstripNl r.stdout, rstripNl r.stderr⟩ ↔
      ¬ r.status = 0) := by
  by_cases h : r.status = 0 <;> simp [execute, h]

/-- C3: `cleanup` removes the work directory exactly when `success = true`
and `keep = false`; in the other three combinations it still exists. -/
theorem cleanup_spec (success keep : Bool) :
    (cleanup success keep true = false ↔ (success = true ∧ keep = false)) := by
  cases success <;> cases keep <;> simp [cleanup]

end Autoregtest
namespace Autoregtest

/-- C2: `check_logs` classifies the run as success exactly when the log
content contains `RT_SUCCESSFUL` as a substring, regardless of the
surrounding content; content without the marker yields `success = false`.
(The mail step is assumed to exit zero so that the verdict is returned.) -/
theorem check_logs_marker (system compiler tmpdir rtlog content email : String)
    (keep : Bool) (mailRes : ProcResult) (h : mailRes.status = 0) :
    ((check_logs system compiler tmpdir rtlog content keep email mailRes).fst = .ok true ↔
      ∃ p q, content.data = p ++ RT_SUCCESSFUL.data ++ q) ∧
    ((check_logs system compiler tmpdir rtlog content keep email mailRes).fst = .ok false ↔
      ¬ ∃ p q, content.data = p ++ RT_SUCCESSFUL.data ++ q) := by
  have hfst : (check_logs system compiler tmpdir rtlog content keep email mailRes).fst
      = .ok (strIn RT_SUCCESSFUL content) := by
    simp [check_logs, execute, h]
  rw [hfst, ← strIn_iff]
  constructor <;> simp [Bool.not_eq_true]

/-- Witness for C2 at a concrete log content containing the marker. -/
theorem check_logs_marker_witness :
    (check_logs "hera" "intel" "wd" "rt.log" "xx REGRESSION TEST WAS SUCCESSFUL yy" false
      "heinzell@ucar.edu" ⟨0, "", ""⟩).fst = .ok true :=
  ((check_logs_marker "hera" "intel" "wd" "rt.log" "xx REGRESSION TEST WAS SUCCESSFUL yy"
      "heinzell@ucar.edu" false ⟨0, "", ""⟩ rfl).1).mpr
    ⟨"xx ".data, " yy".data, by decide⟩

/-- C7: a failing mail command in `check_logs` surfaces as the execution
error produced by `execute` for that very mail command — the same path as
every other subprocess failure — and the boolean verdict is returned
exactly when the mail command exits zero. -/
theorem check_logs_mail_path (system compiler tmpdir rtlog content email : String)
    (keep : Bool) (mailRes : ProcResult) :
    ((check_logs system compiler tmpdir rtlog content keep email mailRes).fst
        = .ok (strIn RT_SUCCESSFUL content) ↔ mailRes.status = 0) ∧
    (∀ e : ExecError,
      (check_logs system compiler tmpdir rtlog content keep email mailRes).fst = .error e ↔
        execute (mailCmd (logMessage rtlog tmpdir (strIn RT_SUCCESSFUL content) keep) rtlog
          (logSubject system compiler (strIn RT_SUCCESSFUL content)) email) mailRes
          = .error e) := by
  by_cases h : mailRes.status = 0 <;> simp [check_logs, execute, h]

end Autoregtest
namespace Autoregtest

theorem parse_arguments_ok_inv (args : Args) (r : Resolved)
    (h : parse_arguments args = .ok r) :
    ∃ fi si, List.lookup args.fork FORKS = some fi ∧ args.branch ∈ fi.branches ∧
      List.lookup args.system SYSTEMS = some si ∧
      r.compiler = pyOr args.compiler si.default_compiler ∧
      r.compiler ∈ si.compilers ∧
      r.project = pyOr args.project si.default_project ∧
      r.email = pyOr args.email DEFAULT_EMAIL_RECIPIENT ∧
      r.fork = args.fork ∧ r.branch = args.branch ∧ r.system = args.system ∧
      r.keep = args.keep ∧
      (∀ rt0, pyTruthy args.rtconfig = some rt0 → r.rtconfig = rt0) := by
  unfold parse_arguments at h
  rcases hf : List.lookup args.fork FORKS with _ | fi <;> simp only [hf] at h
  · exact Except.noConfusion h
  by_cases hb : args.branch ∈ fi.branches
  case neg => rw [if_neg hb] at h; exact Except.noConfusion h
  rw [if_pos hb] at h
  rcases hs : List.lookup args.system SYSTEMS with _ | si <;> simp only [hs] at h
  · exact Except.noConfusion h
  by_cases hc : pyOr args.compiler si.default_compiler ∈ si.compilers
  case neg => rw [if_neg hc] at h; exact Except.noConfusion h
  rw [if_pos hc] at h
  refine ⟨fi, si, rfl, hb, rfl, ?_⟩
  rcases hrt : pyTruthy args.rtconfig with _ | rt <;> simp only [hrt] at h
  · rcases hd : List.lookup (pyOr args.compiler si.default_compiler) si.default_rtconfig
        with _ | d <;> simp only [hd] at h
    · exact Except.noConfusion h
    injection h with h
    subst h
    exact ⟨rfl, hc, rfl, rfl, rfl, rfl, rfl, rfl, fun rt0 h0 => Option.noConfusion h0⟩
  injection h with h
  subst h
  exact ⟨rfl, hc, rfl, rfl, rfl, rfl, rfl, rfl, fun rt0 h0 => by cases h0; rfl⟩


theorem default_rtconfig_total (system : String) (si : SystemInfo) (c : String)
    (hs : List.lookup system SYSTEMS = some si) (hc : c ∈ si.compilers) :
    ∃ rt, List.lookup c si.default_rtconfig = some rt := by
  by_cases h1 : system = "cheyenne"
  · subst h1
    simp [SYSTEMS, List.lookup] at hs
    subst hs
    simp at hc
    rcases hc with rfl | rfl
    · exact ⟨"rt.conf", by decide⟩
    · exact ⟨"rt_gnu.conf", by decide⟩
  · by_cases h2 : system = "hera"
    · subst h2
      simp [SYSTEMS, List.lookup] at hs
      subst hs
      simp at hc
      subst hc
      exact ⟨"rt.conf", by decide⟩
    · have b1 : (system == "cheyenne") = false := beq_eq_false_iff_ne.mpr h1
      have b2 : (system == "hera") = false := beq_eq_false_iff_ne.mpr h2
      simp [SYSTEMS, List.lookup, b1, b2] at hs

theorem parse_arguments_ok_of_valid (args : Args) (fi : ForkInfo) (si : SystemInfo)
    (hf : List.lookup args.fork FORKS = some fi) (hb : args.branch ∈ fi.branches)
    (hs : List.lookup args.system SYSTEMS = some si)
    (hc : pyOr args.compiler si.default_compiler ∈ si.compilers) :
    ∃ r, parse_arguments args = .ok r := by
  unfold parse_arguments
  simp only [hf]
  rw [if_pos hb]
  simp only [hs, hc, if_true]
  rcases hrt : pyTruthy args.rtconfig with _ | rt <;> simp only [hrt]
  · obtain ⟨rt0, hd⟩ :=
      default_rtconfig_total args.system si (pyOr args.compiler si.default_compiler) hs hc
    simp only [hd]
    exact ⟨_, rfl⟩
  · exact ⟨_, rfl⟩


/-- C10: for every valid (fork, branch, system, compiler) selection the
resolver succeeds no matter what `--project` / `--rtconfig` strings are
supplied — they are never validated against any table — and a supplied
non-empty value is passed through unchanged. -/
theorem project_rtconfig_unvalidated (args : Args) (fi : ForkInfo) (si : SystemInfo)
    (hf : List.lookup args.fork FORKS = some fi) (hb : args.branch ∈ fi.branches)
    (hs : List.lookup args.system SYSTEMS = some si)
    (hc : pyOr args.compiler si.default_compiler ∈ si.compilers) :
    ∃ r, parse_arguments args = .ok r ∧
      (∀ p, args.project = some p → p ≠ "" → r.project = p) ∧
      (∀ rt, args.rtconfig = some rt → rt ≠ "" → r.rtconfig = rt) := by
  obtain ⟨r, hr⟩ := parse_arguments_ok_of_valid args fi si hf hb hs hc
  obtain ⟨fi2, si2, hf2, -, hs2, -, -, hproj, -, -, -, -, -, hpass⟩ :=
    parse_arguments_ok_inv args r hr
  refine ⟨r, hr, ?_, ?_⟩
  · intro p hp hne
    rw [hproj]
    simp [pyOr, pyTruthy, hp, hne]
  · intro rt hrt hne
    exact hpass rt (by simp [pyTruthy, hrt, hne])

/-- Argument set with explicitly supplied project and rtconfig. -/
def c10Args : Args :=
  ⟨"emc", "develop", "hera", none, some "myproj", some "my.conf", false, none⟩

/-- Witness for C10 at a concrete valid selection. -/
theorem project_rtconfig_unvalidated_witness :
    ∃ r, parse_arguments c10Args = .ok r ∧
      (∀ p, c10Args.project = some p → p ≠ "" → r.project = p) ∧
      (∀ rt, c10Args.rtconfig = some rt → rt ≠ "" → r.rtconfig = rt) :=
  project_rtconfig_unvalidated c10Args
    ⟨["develop"], "https://github.com/ufs-community/ufs-weather-model"⟩
    ⟨["intel"], "intel", "gmtb", [("intel", "rt.conf")]⟩
    (by decide) (by decide) (by decide) (by decide)

/-- C4: whenever the fork is unknown, the branch is not allowed for the
fork, the system is unknown, or the (given-or-defaulted) compiler is not
allowed for the system, the resolver fails with a configuration error and
the run stops before any external command is executed (empty trace, no
work directory created). -/
theorem resolver_rejects_invalid (args : Args) (env : Env)
    (h : List.lookup args.fork FORKS = none ∨
         (∃ fi, List.lookup args.fork FORKS = some fi ∧ args.branch ∉ fi.branches) ∨
         List.lookup args.system SYSTEMS = none ∨
         (∃ si, List.lookup args.system SYSTEMS = some si ∧
            pyOr args.compiler si.default_compiler ∉ si.compilers)) :
    (∃ e, parse_arguments args = .error e) ∧
    (∃ e, main_run args env = ⟨.error (.config e), [], false, false⟩) := by
  rcases hp : parse_arguments args with e | r
  · exact ⟨⟨e, rfl⟩, ⟨e, by simp [main_run, hp]⟩⟩
  · exfalso
    obtain ⟨fi, si, hf, hb, hs, hceq, hcm, -, -, -, -, -, -, -⟩ :=
      parse_arguments_ok_inv args r hp
    rcases h with h | ⟨fi2, hf2, hnb⟩ | h | ⟨si2, hs2, hnc⟩
    · rw [h] at hf
      exact Option.noConfusion hf
    · rw [hf2] at hf
      injection hf with hf
      subst hf
      exact hnb hb
    · rw [h] at hs
      exact Option.noConfusion hs
    · rw [hs2] at hs
      injection hs with hs
      subst hs
      rw [hceq] at hcm
      exact hnc hcm

/-- Environment argument used by concrete instances. -/
def okRes : ProcResult := ⟨0, "", ""⟩

/-- A fully successful environment: every subprocess exits zero and the
harness log contains the success marker. -/
def goodEnv : Env :=
  ⟨"/tmp/regtest_wd", "rt_20191122T120000.log", okRes, okRes, okRes, okRes,
    "RT log\nREGRESSION TEST WAS SUCCESSFUL\nbye", okRes⟩

/-- Witness for C4 at an unknown fork. -/
theorem resolver_rejects_invalid_witness :
    (∃ e, parse_arguments ⟨"github", "develop", "hera", none, none, none, false, none⟩
        = .error e) ∧
    (∃ e, main_run ⟨"github", "develop", "hera", none, none, none, false, none⟩ goodEnv
        = ⟨.error (.config e), [], false, false⟩) :=
  resolver_rejects_invalid ⟨"github", "develop", "hera", none, none, none, false, none⟩
    goodEnv (Or.inl (by decide))


/-- The end-to-end scenario arguments of the spec: fork emc, branch
develop, system hera, no optional overrides. -/
def heraArgs : Args := ⟨"emc", "develop", "hera", none, none, none, false, none⟩

/-- C5: with fork emc, branch develop, system hera and no overrides the
resolver yields compiler intel, project gmtb, rtconfig rt.conf; a run
whose harness log contains the success marker then yields success and,
with keep = false, removal of the temporary directory. -/
theorem end_to_end_hera :
    parse_arguments heraArgs =
      .ok ⟨"emc", "develop", "hera", "intel", "gmtb", "rt.conf", false,
           "heinzell@ucar.edu"⟩ ∧
    (main_run heraArgs goodEnv).result = .ok true ∧
    (main_run heraArgs goodEnv).workdirExists = false :=
  ⟨rfl, rfl, rfl⟩

/-- Arguments in which `--email` is supplied as the empty string. -/
def emptyEmailArgs : Args := ⟨"emc", "develop", "hera", none, none, none, false, some ""⟩

/-- C9 counterexample: with `--email` given as the empty string the
resolver does not use the given value unchanged — Python truthiness sends
the empty string to the default recipient. -/
theorem email_empty_not_used :
    emptyEmailArgs.email = some "" ∧
    parse_arguments emptyEmailArgs =
      .ok ⟨"emc", "develop", "hera", "intel", "gmtb", "rt.conf", false,
           "heinzell@ucar.edu"⟩ ∧
    "heinzell@ucar.edu" ≠ "" :=
  ⟨rfl, rfl, by decide⟩

/-- C9 amended: an absent or empty `--email` resolves to the fixed default
recipient, independent of the chosen system; a non-empty given value is
used unchanged. -/
theorem email_resolution (args : Args) (r : Resolved)
    (h : parse_arguments args = .ok r) :
    ((args.email = none ∨ args.email = some "") → r.email = DEFAULT_EMAIL_RECIPIENT) ∧
    (∀ e, args.email = some e → e ≠ "" → r.email = e) := by
  obtain ⟨fi, si, -, -, -, -, -, -, hemail, -, -, -, -, -⟩ :=
    parse_arguments_ok_inv args r h
  constructor
  · rintro (he | he) <;> rw [hemail] <;> simp [pyOr, pyTruthy, he]
  · intro e he hne
    rw [hemail]
    simp [pyOr, pyTruthy, he, hne]

/-- Arguments with a non-empty `--email` value. -/
def emailArgs : Args :=
  ⟨"emc", "develop", "hera", none, none, none, false, some "user@example.com"⟩

/-- The tuple `emailArgs` resolves to. -/
def emailRes : Resolved :=
  ⟨"emc", "develop", "hera", "intel", "gmtb", "rt.conf", false, "user@example.com"⟩

/-- Witness for the amended C9 at a concrete non-empty email. -/
theorem email_resolution_witness :
    ((emailArgs.email = none ∨ emailArgs.email = some "") →
      emailRes.email = DEFAULT_EMAIL_RECIPIENT) ∧
    (∀ e, emailArgs.email = some e → e ≠ "" → emailRes.email = e) :=
  email_resolution emailArgs emailRes rfl

end Autoregtest
namespace Autoregtest

theorem run_tests_error_trace (system compiler project rtconfig : String) (keep : Bool)
    (env : Env) (e : ExecError) (tr : List String)
    (h : run_tests system compiler project rtconfig keep env = (.error e, tr)) :
    tr = [e.cmd] := by
  by_cases hs : env.rtRes.status = 0 <;> simp [run_tests, execute, hs] at h
  obtain ⟨rfl, rfl⟩ := h
  rfl

theorem check_logs_error_trace (system compiler tmpdir rtlog logContent : String)
    (keep : Bool) (email : String) (mailRes : ProcResult) (e : ExecError)
    (tr : List String)
    (h : check_logs system compiler tmpdir rtlog logContent keep email mailRes
      = (.error e, tr)) :
    tr = [e.cmd] := by
  by_cases hs : mailRes.status = 0 <;> simp [check_logs, execute, hs] at h
  obtain ⟨rfl, rfl⟩ := h
  rfl

theorem check_logs_ok_mail (system compiler tmpdir rtlog logContent : String)
    (keep : Bool) (email : String) (mailRes : ProcResult) (b : Bool) (tr : List String)
    (h : check_logs system compiler tmpdir rtlog logContent keep email mailRes
      = (.ok b, tr)) :
    mailRes.status = 0 ∧ b = strIn RT_SUCCESSFUL logContent := by
  by_cases hs : mailRes.status = 0 <;> simp [check_logs, execute, hs] at h
  exact ⟨hs, h.1.symm⟩

theorem checkout_code_exec_error (fork branch : String) (env : Env) (e : ExecError)
    (tr : List String)
    (h : checkout_code fork branch env = (.error (.exec e), tr)) :
    tr.getLast? = some e.cmd := by
  unfold checkout_code at h
  rcases hf : List.lookup fork FORKS with _ | fi <;> simp only [hf] at h
  · simp at h
  rcases h1 : execute (cloneCmd branch fi.url) env.cloneRes with e1 | v1 <;>
    simp only [h1] at h
  · simp only [Prod.mk.injEq, Except.error.injEq, RunError.exec.injEq] at h
    obtain ⟨rfl, rfl⟩ := h
    obtain ⟨rfl, -⟩ := execute_error_fields _ _ _ h1
    rfl
  rcases h2 : execute submoduleSyncCmd env.syncRes with e2 | v2 <;> simp only [h2] at h
  · simp only [Prod.mk.injEq, Except.error.injEq, RunError.exec.injEq] at h
    obtain ⟨rfl, rfl⟩ := h
    obtain ⟨rfl, -⟩ := execute_error_fields _ _ _ h2
    rfl
  rcases h3 : execute submoduleUpdateCmd env.updateRes with e3 | v3 <;>
    simp only [h3] at h
  · simp only [Prod.mk.injEq, Except.error.injEq, RunError.exec.injEq] at h
    obtain ⟨rfl, rfl⟩ := h
    obtain ⟨rfl, -⟩ := execute_error_fields _ _ _ h3
    rfl
  · simp at h


/-- C6: if any step after work-directory creation fails (checkout, test
execution, or the log-evaluation/notification step raising an execution
error), the run terminates at that point — the failing command is the
last external command executed, nothing is retried afterwards — and the
temporary work directory is left in place. -/
theorem run_failure_aborts (args : Args) (env : Env) (err : RunError)
    (hcr : (main_run args env).workdirCreated = true)
    (he : (main_run args env).result = .error err) :
    (main_run args env).workdirExists = true ∧
    (∀ e, err = RunError.exec e →
      (main_run args env).executed.getLast? = some e.cmd) := by
  rcases hp : parse_arguments args with e0 | r <;>
    simp only [main_run, hp] at hcr he ⊢
  · exact absurd hcr (by simp)
  rcases hco : checkout_code r.fork r.branch env with ⟨cres, tr1⟩
  rcases cres with e1 | u
  · simp only [hco] at he ⊢
    refine ⟨trivial, ?_⟩
    intro e heq
    injection he with he
    subst he
    subst heq
    exact checkout_code_exec_error r.fork r.branch env e tr1 hco
  rcases hrt : run_tests r.system r.compiler r.project r.rtconfig r.keep env
      with ⟨rres, tr2⟩
  rcases rres with e2 | rtlog
  · simp only [hco, hrt] at he ⊢
    refine ⟨trivial, ?_⟩
    intro e heq
    injection he with he
    subst he
    injection heq with heq
    subst heq
    rw [run_tests_error_trace _ _ _ _ _ _ _ _ hrt, List.getLast?_concat]
  rcases hcl : check_logs r.system r.compiler env.tmpdir rtlog env.logContent r.keep
      r.email env.mailRes with ⟨clres, tr3⟩
  rcases clres with e3 | success
  · simp only [hco, hrt, hcl] at he ⊢
    refine ⟨trivial, ?_⟩
    intro e heq
    injection he with he
    subst he
    injection heq with heq
    subst heq
    rw [check_logs_error_trace _ _ _ _ _ _ _ _ _ _ hcl, List.getLast?_concat]
  · simp only [hco, hrt, hcl] at he
    exact Except.noConfusion he

/-- Environment in which the clone step fails. -/
def cloneFailEnv : Env :=
  ⟨"/tmp/regtest_wd", "rt_20191122T120000.log", ⟨128, "", "fatal: repo not found"⟩,
    okRes, okRes, okRes, "", okRes⟩

/-- The execution error the failing clone raises. -/
def cloneFailErr : ExecError :=
  ⟨cloneCmd "develop" "https://github.com/ufs-community/ufs-weather-model",
    128, "", "fatal: repo not found"⟩

/-- Witness for C6: a failing clone leaves the work directory in place and
is the last executed command. -/
theorem run_failure_aborts_witness :
    (main_run heraArgs cloneFailEnv).workdirExists = true ∧
    (∀ e, RunError.exec cloneFailErr = RunError.exec e →
      (main_run heraArgs cloneFailEnv).executed.getLast? = some e.cmd) :=
  run_failure_aborts heraArgs cloneFailEnv (.exec cloneFailErr) rfl rfl

/-- C8: the work directory is deleted only after the notification mail
command has completed successfully — deletion implies the mail command
exited zero and the whole run finished with verdict true (so a failing
mail command always retains the directory, even with the marker present
and keep = false). -/
theorem workdir_deleted_only_after_mail (args : Args) (env : Env)
    (hcr : (main_run args env).workdirCreated = true)
    (hde : (main_run args env).workdirExists = false) :
    env.mailRes.status = 0 ∧ (main_run args env).result = .ok true := by
  rcases hp : parse_arguments args with e0 | r <;>
    simp only [main_run, hp] at hcr hde ⊢
  · exact absurd hcr (by simp)
  rcases hco : checkout_code r.fork r.branch env with ⟨cres, tr1⟩
  rcases cres with e1 | u
  · simp only [hco] at hde
    exact absurd hde (by simp)
  rcases hrt : run_tests r.system r.compiler r.project r.rtconfig r.keep env
      with ⟨rres, tr2⟩
  rcases rres with e2 | rtlog
  · simp only [hco, hrt] at hde
    exact absurd hde (by simp)
  rcases hcl : check_logs r.system r.compiler env.tmpdir rtlog env.logContent r.keep
      r.email env.mailRes with ⟨clres, tr3⟩
  rcases clres with e3 | success
  · simp only [hco, hrt, hcl] at hde
    exact absurd hde (by simp)
  simp only [hco, hrt, hcl] at hde ⊢
  obtain ⟨hm, -⟩ := check_logs_ok_mail _ _ _ _ _ _ _ _ _ _ hcl
  have hsucc : success = true := by
    rcases success with _ | _
    · simp [cleanup] at hde
    · rfl
  subst hsucc
  exact ⟨hm, rfl⟩

/-- Witness for C8 at the fully successful run. -/
theorem workdir_deleted_only_after_mail_witness :
    goodEnv.mailRes.status = 0 ∧ (main_run heraArgs goodEnv).result = .ok true :=
  workdir_deleted_only_after_mail heraArgs goodEnv rfl rfl

end Autoregtest
